import Mathlib

/-
Shallow embedding of swift/common/middleware/decrypter.py (read-path
decryption middleware).  Python functions are translated into executable
Lean definitions; Python exceptions become an explicit error type carried
in `Except`.  External stdlib collaborators (urllib.unquote_plus,
base64.b64decode, json.loads restricted to the flat string-valued objects
that crypto-meta serializations take) are given concrete executable
models; repository helpers that are not part of the middleware source are
modelled from the specification and say so in their doc comments.
-/

namespace SwiftDecrypter

/-- Python exception values that can propagate out of the decrypter code:
`httpError` is swob.HTTPInternalServerError (a swob.HTTPException carrying a
plain-text body); `valueError`, `typeError` and `keyError` are the builtin
exceptions; `encryptionExc` is swift.common.exceptions.EncryptionException;
`appFault` marks an unstructured exception raised by the wrapped WSGI
application. -/
inductive PyExc where
  | httpError (body : String)
  | valueError
  | typeError
  | keyError
  | encryptionExc (msg : String)
  | appFault (msg : String)
  deriving DecidableEq, Repr

/-- The crypto-meta record built by `_load_crypto_meta`: the `iv` field
base64-decoded to raw bytes (modelled as a string of byte-valued chars) and
the `cipher` identifier.  Extra fields of the serialized dict are never read
by the middleware and are dropped from the model. -/
structure CryptoMeta where
  iv : String
  cipher : String
  deriving DecidableEq, Repr

/-- The role-to-key mapping returned by the key-fetch callback. -/
structure KeyMap where
  object : String
  container : String
  deriving DecidableEq, Repr

/-- A decryption context handle: the (key, iv, offset) triple the engine's
`create_decryption_ctxt` is seeded with. -/
structure DecryptionCtxt where
  key : String
  iv : String
  offset : Nat
  deriving DecidableEq, Repr

/-- The cipher engine, an opaque external capability per the spec: a cipher
identifier plus a stateful chunk transform.  `update` consumes one
ciphertext chunk and returns the plaintext chunk together with the advanced
context. -/
structure Crypto where
  cipher : String
  update : DecryptionCtxt → String → String × DecryptionCtxt

/-- Crypto.get_cipher. -/
def Crypto.get_cipher (c : Crypto) : String := c.cipher

/-- Crypto.create_decryption_ctxt: seeds a context with key, iv and offset. -/
def Crypto.create_decryption_ctxt (_c : Crypto) (key iv : String) (offset : Nat) :
    DecryptionCtxt :=
  { key := key, iv := iv, offset := offset }

/-- Ordered response header list, name lookup case-insensitive. -/
abbrev Headers := List (String × String)

/-- Character-level lowercasing, the model of str.lower; written over the
character list so that it evaluates by kernel reduction. -/
def pyLower (s : String) : String :=
  String.mk (s.toList.map Char.toLower)

/-- WSGIContext._response_header_value: first pair whose name matches
case-insensitively, or none. -/
def headerValue : Headers → String → Option String
  | [], _ => none
  | (n, v) :: rest, name =>
    if pyLower n = pyLower name then some v else headerValue rest name

/-- The whitespace characters str.strip removes by default. -/
def isPySpace (c : Char) : Bool :=
  c == ' ' || c == '\t' || c == '\n' || c == '\r' || c == '\x0b' || c == '\x0c'

/-- Model of str.strip with no argument. -/
def pyStrip (s : String) : String :=
  String.mk (((s.toList.dropWhile isPySpace).reverse.dropWhile isPySpace).reverse)

/-- Model of str.startswith. -/
def pyStartsWith (s pre : String) : Bool :=
  pre.toList.isPrefixOf s.toList

/-- Model of negative-free slicing s[n:]. -/
def pyDrop (s : String) (n : Nat) : String :=
  String.mk (s.toList.drop n)

/-- Model of str.endswith. -/
def pyEndsWith (s suf : String) : Bool :=
  suf.toList.reverse.isPrefixOf s.toList.reverse

/-- Split worker: cuts the character list at every occurrence of the
separator character. -/
def pySplitAux (sep : Char) : List Char → List Char → List String
  | [], cur => [String.mk cur.reverse]
  | c :: rest, cur =>
    if c = sep then String.mk cur.reverse :: pySplitAux sep rest []
    else pySplitAux sep rest (c :: cur)

/-- Model of str.split on a single-character separator (no maxsplit). -/
def pySplit (sep : Char) (s : String) : List String :=
  pySplitAux sep s.toList []

/-- Model of sep.join. -/
def pyJoin (sep : String) : List String → String
  | [] => ""
  | [x] => x
  | x :: xs => x ++ sep ++ pyJoin sep xs

/-- Digit-list to number worker for int(); none when a non-digit occurs. -/
def pyToNatAux : List Char → Nat → Option Nat
  | [], acc => some acc
  | c :: rest, acc =>
    if '0' ≤ c ∧ c ≤ '9' then pyToNatAux rest (10 * acc + (c.toNat - 48))
    else none

/-- Model of int() on a digits-only string, as the content-range regular
expression guarantees; none (ValueError) otherwise, also for the empty
string. -/
def pyToNat (s : String) : Option Nat :=
  if s = "" then none else pyToNatAux s.toList 0

/-- Value of a hex digit, for percent-decoding. -/
def hexVal (c : Char) : Option Nat :=
  if '0' ≤ c ∧ c ≤ '9' then some (c.toNat - 48)
  else if 'a' ≤ c ∧ c ≤ 'f' then some (c.toNat - 87)
  else if 'A' ≤ c ∧ c ≤ 'F' then some (c.toNat - 55)
  else none

/-- Character-level worker for `unquote_plus`; an incomplete or invalid
percent escape is kept as literal text, as urllib does.  The fuel argument
only drives structural recursion and is always instantiated with the input
length, which one-or-more characters consumed per step can never exhaust. -/
def unquotePlusAux : Nat → List Char → List Char
  | _, [] => []
  | 0, cs => cs
  | fuel + 1, '+' :: rest => ' ' :: unquotePlusAux fuel rest
  | fuel + 1, '%' :: a :: b :: r =>
    match hexVal a, hexVal b with
    | some x, some y => Char.ofNat (16 * x + y) :: unquotePlusAux fuel r
    | _, _ => '%' :: unquotePlusAux fuel (a :: b :: r)
  | fuel + 1, c :: rest => c :: unquotePlusAux fuel rest

/-- Model of urllib.unquote_plus: every plus becomes a space and every valid
percent escape is decoded; malformed escapes are left as-is. -/
def unquote_plus (s : String) : String :=
  String.mk (unquotePlusAux s.toList.length s.toList)

/-- Value of a base64 alphabet character. -/
def b64Val (c : Char) : Option Nat :=
  if 'A' ≤ c ∧ c ≤ 'Z' then some (c.toNat - 65)
  else if 'a' ≤ c ∧ c ≤ 'z' then some (c.toNat - 71)
  else if '0' ≤ c ∧ c ≤ '9' then some (c.toNat + 4)
  else if c = '+' then some 62
  else if c = '/' then some 63
  else none

/-- Quartet-by-quartet base64 decoding; none on malformed input.  The fuel
argument only drives structural recursion and is always instantiated with
the input length. -/
def b64decodeAux : Nat → List Char → Option (List Char)
  | _, [] => some []
  | 0, _ => none
  | fuel + 1, a :: b :: c :: d :: rest =>
    match b64Val a, b64Val b with
    | some x, some y =>
      if c = '=' then
        if d = '=' ∧ rest = [] then some [Char.ofNat (4 * x + y / 16)]
        else none
      else
        match b64Val c with
        | some z =>
          if d = '=' then
            if rest = [] then
              some [Char.ofNat (4 * x + y / 16), Char.ofNat ((y % 16) * 16 + z / 4)]
            else none
          else
            match b64Val d with
            | some w =>
              match b64decodeAux fuel rest with
              | some t =>
                some (Char.ofNat (4 * x + y / 16) ::
                      Char.ofNat ((y % 16) * 16 + z / 4) ::
                      Char.ofNat ((z % 4) * 64 + w) :: t)
              | none => none
            | none => none
        | none => none
    | _, _ => none
  | _ + 1, _ => none

/-- Model of Python 2 base64.b64decode: decodes strict RFC base64 and raises
TypeError on malformed input (the error Python 2 documents for incorrect
padding). -/
def b64decode (s : String) : Except PyExc String :=
  match b64decodeAux s.toList.length s.toList with
  | some cs => Except.ok (String.mk cs)
  | none => Except.error PyExc.typeError

/-- JSON insignificant whitespace. -/
def isJsonWs (c : Char) : Bool :=
  c == ' ' || c == '\t' || c == '\n' || c == '\r'

/-- Drop leading JSON whitespace. -/
def skipWs (cs : List Char) : List Char :=
  cs.dropWhile isJsonWs

/-- Reads characters up to a closing quote; escapes are out of scope of the
crypto-meta token shape and are treated as a parse failure. -/
def readJsonStringAux : List Char → List Char → Option (String × List Char)
  | [], _ => none
  | '"' :: rest, acc => some (String.mk acc.reverse, rest)
  | '\\' :: _, _ => none
  | c :: rest, acc => readJsonStringAux rest (c :: acc)

/-- Reads one double-quoted JSON string. -/
def readJsonString : List Char → Option (String × List Char)
  | '"' :: rest => readJsonStringAux rest []
  | _ => none

/-- Reads the comma-separated members of a flat JSON object, up to and
including the closing brace.  The fuel argument bounds recursion and is
always instantiated larger than the input length. -/
def parseJsonMembers : Nat → List Char → Option (List (String × String) × List Char)
  | 0, _ => none
  | fuel + 1, cs =>
    match readJsonString (skipWs cs) with
    | none => none
    | some (key, cs1) =>
      match skipWs cs1 with
      | ':' :: cs2 =>
        match readJsonString (skipWs cs2) with
        | none => none
        | some (val, cs3) =>
          match skipWs cs3 with
          | ',' :: cs4 =>
            match parseJsonMembers fuel cs4 with
            | some (pairs, rest) => some ((key, val) :: pairs, rest)
            | none => none
          | '\x7d' :: cs4 => some ([(key, val)], cs4)
          | _ => none
      | _ => none

/-- Model of the stdlib json.loads restricted to the only document shape a
crypto-meta serialization takes: one flat object with string keys and string
values.  Any other input is a parse failure (ValueError); a document that is
not an object would make the subsequent `.items()` call fail anyway. -/
def jsonLoadsFlat (s : String) : Except PyExc (List (String × String)) :=
  match skipWs s.toList with
  | '\x7b' :: cs =>
    match skipWs cs with
    | '\x7d' :: rest =>
      if skipWs rest = [] then Except.ok [] else Except.error PyExc.valueError
    | _ =>
      match parseJsonMembers (cs.length + 1) cs with
      | some (pairs, rest) =>
        if skipWs rest = [] then Except.ok pairs else Except.error PyExc.valueError
      | none => Except.error PyExc.valueError
  | _ => Except.error PyExc.valueError

/-- Python dict lookup over parsed members; on duplicate keys the last
occurrence wins, as json.loads builds the dict. -/
def dictLookup (pairs : List (String × String)) (k : String) : Option String :=
  (pairs.reverse.find? (fun p => p.1 == k)).map (fun p => p.2)

/-- The per-item cast of `_load_crypto_meta`'s dict comprehension: the iv
value is base64-decoded (its TypeError escaping to the enclosing handler),
every other value is kept as a string. -/
def decodeMetaPair : String × String → Except PyExc (String × String)
  | (n, v) =>
    if n == "iv" then
      match b64decode v with
      | Except.ok b => Except.ok (n, b)
      | Except.error e => Except.error e
    else Except.ok (n, v)

/-- decrypter._load_crypto_meta: URL-unquote the token, parse it as JSON and
base64-decode the iv, converting any ValueError/TypeError of that block into
HTTPInternalServerError; then require both iv and cipher, again raising
HTTPInternalServerError when one is missing. -/
def load_crypto_meta (s : String) : Except PyExc CryptoMeta :=
  let v := unquote_plus s
  let parsed : Except PyExc (List (String × String)) :=
    match jsonLoadsFlat v with
    | Except.error e => Except.error e
    | Except.ok pairs => pairs.mapM decodeMetaPair
  match parsed with
  | Except.error PyExc.valueError =>
    Except.error (PyExc.httpError ("Could not decrypt. Bad crypto_meta: " ++ v))
  | Except.error PyExc.typeError =>
    Except.error (PyExc.httpError ("Could not decrypt. Bad crypto_meta: " ++ v))
  | Except.error e => Except.error e
  | Except.ok pairs =>
    match dictLookup pairs "iv", dictLookup pairs "cipher" with
    | some iv, some cipher => Except.ok { iv := iv, cipher := cipher }
    | _, _ =>
      Except.error (PyExc.httpError ("Could not decrypt. Missing iv and/or cipher: " ++ v))

/-- BaseDecrypterContext._check_cipher: EncryptionException when the
metadata cipher differs from the engine's cipher. -/
def check_cipher (crypto : Crypto) (cipher : String) : Except PyExc Unit :=
  if cipher = crypto.get_cipher then Except.ok ()
  else
    Except.error (PyExc.encryptionExc
      ("Encrypted with cipher " ++ cipher ++
       ", but can only decrypt with cipher " ++ crypto.get_cipher))

/-- The inline-extraction step of decrypt_value (its lines between the
empty-value check and the cipher check): rsplit on the last semicolon —
which rebinds value to the part before that semicolon whenever one is
present — and, when the trailing segment starts with the marker, decode the
token.  The except clause around `_load_crypto_meta` catches only TypeError
and ValueError, which `_load_crypto_meta` never raises, so its
HTTPInternalServerError propagates. -/
def extract_crypto_meta (value : String) : Except PyExc (String × Option CryptoMeta) :=
  let parts := pySplit ';' value
  if parts.length ≥ 2 then
    let v := pyJoin ";" parts.dropLast
    let param := pyStrip (parts.getLastD "")
    if pyStartsWith param "meta=" then
      match load_crypto_meta (pyDrop param 5) with
      | Except.ok m => Except.ok (v, some m)
      | Except.error PyExc.typeError => Except.ok (v, none)
      | Except.error PyExc.valueError => Except.ok (v, none)
      | Except.error e => Except.error e
    else Except.ok (v, none)
  else Except.ok (value, none)

/-- BaseDecrypterContext.decrypt_value.  An empty (or absent) value returns
the empty string at once; without explicit crypto-meta the inline extraction
runs; with no metadata found, the (possibly rebound) value is returned as
plaintext; otherwise the cipher is checked — a mismatch becoming
HTTPInternalServerError with the header-stage diagnostic — and the
base64-decoded ciphertext goes through a fresh context at offset 0. -/
def decrypt_value (crypto : Crypto) (value : String) (key : String)
    (crypto_meta : Option CryptoMeta) : Except PyExc String :=
  if value = "" then Except.ok ""
  else
    let ext : Except PyExc (String × Option CryptoMeta) :=
      match crypto_meta with
      | some m => Except.ok (value, some m)
      | none => extract_crypto_meta value
    match ext with
    | Except.error e => Except.error e
    | Except.ok (v, none) => Except.ok v
    | Except.ok (v, some m) =>
      match check_cipher crypto m.cipher with
      | Except.error _ => Except.error (PyExc.httpError "Error decrypting header value")
      | Except.ok _ =>
        match b64decode v with
        | Except.error e => Except.error e
        | Except.ok ct =>
          Except.ok (crypto.update (crypto.create_decryption_ctxt key m.iv 0) ct).1

/-- BaseDecrypterContext.get_sysmeta_crypto_meta: none when the header is
absent, otherwise the decoded token, whose decode failure propagates. -/
def get_sysmeta_crypto_meta (hs : Headers) (name : String) :
    Except PyExc (Option CryptoMeta) :=
  match headerValue hs name with
  | none => Except.ok none
  | some j =>
    match load_crypto_meta j with
    | Except.ok m => Except.ok (some m)
    | Except.error e => Except.error e

/-- Modelled from the spec: swift.common.http.is_success is not under src/;
the spec says decryption proceeds only for a response status in the success
class, the conventional 2xx range. -/
def is_success (status : Nat) : Bool :=
  decide (200 ≤ status) && decide (status ≤ 299)

/-- The three states of the request environment's key-fetch callback
`swift.crypto.fetch_crypto_keys`: absent, raising, or returning a key map. -/
inductive KeyFetch where
  | missing
  | raises (msg : String)
  | keys (km : KeyMap)
  deriving Repr

/-- Modelled from the spec: CryptoWSGIContext.get_keys (crypto_utils) is not
under src/; the spec says the absence of the key-fetch callback or a failure
it raises is a hard failure whose diagnostic names the callback.  The
diagnostic strings are the ones the unit tests assert. -/
def get_keys : KeyFetch → Except PyExc KeyMap
  | KeyFetch.missing =>
    Except.error (PyExc.httpError "swift.crypto.fetch_crypto_keys not in env")
  | KeyFetch.raises m =>
    Except.error (PyExc.httpError ("swift.crypto.fetch_crypto_keys had exception: " ++ m))
  | KeyFetch.keys km => Except.ok km

/-- BaseDecrypterContext.process_resp: none (skip decryption) when the
response status is not a success or the request-scoped override flag
`swift.crypto.override` is truthy; otherwise the fetched keys.  The boolean
argument stands for config_true_value applied to the flag. -/
def process_resp (status : Nat) (override : Bool) (kf : KeyFetch) :
    Except PyExc (Option KeyMap) :=
  if is_success status = false then Except.ok none
  else if override then Except.ok none
  else
    match get_keys kf with
    | Except.ok km => Except.ok (some km)
    | Except.error e => Except.error e

/-- Modelled from the spec: the user-metadata naming convention of
request_helpers (not under src/) — a response header is user metadata for
the object server when its name extends x-object-meta- case-insensitively. -/
def user_meta_pfx : String := "x-object-meta-"

/-- request_helpers.is_user_meta for server type object. -/
def is_user_meta (name : String) : Bool :=
  decide (user_meta_pfx.length < name.length) && pyStartsWith (pyLower name) user_meta_pfx

/-- request_helpers.strip_user_meta_prefix for server type object: the
header name with the fixed user-metadata marker removed. -/
def strip_user_meta_pfx (name : String) : String :=
  pyDrop name user_meta_pfx.length

/-- The header naming convention pairing user metadata with its crypto-meta:
get_obj_persisted_sysmeta_prefix() ++ "crypto-meta-" (lookup is
case-insensitive, so the fixed casing is irrelevant). -/
def crypto_meta_sysmeta_pfx : String := "X-Object-Sysmeta-Crypto-Meta-"

/-- The loop body of DecrypterObjContext.decrypt_user_metadata, walking the
remaining response headers while looking sysmeta up in the full header list:
a header is processed only when it is user metadata with a non-empty value
and a correspondingly-named crypto-meta header decodes to metadata; each
processed header contributes its decrypted pair, in order. -/
def decrypt_user_metadata_aux (crypto : Crypto) (hs : Headers) (key : String) :
    Headers → Except PyExc Headers
  | [] => Except.ok []
  | (name, val) :: rest =>
    if is_user_meta name = true ∧ val ≠ "" then
      match get_sysmeta_crypto_meta hs (crypto_meta_sysmeta_pfx ++ strip_user_meta_pfx name) with
      | Except.error e => Except.error e
      | Except.ok none => decrypt_user_metadata_aux crypto hs key rest
      | Except.ok (some m) =>
        match decrypt_value crypto val key (some m) with
        | Except.error e => Except.error e
        | Except.ok v =>
          match decrypt_user_metadata_aux crypto hs key rest with
          | Except.error e => Except.error e
          | Except.ok r => Except.ok ((name, v) :: r)
    else decrypt_user_metadata_aux crypto hs key rest

/-- DecrypterObjContext.decrypt_user_metadata. -/
def decrypt_user_metadata (crypto : Crypto) (hs : Headers) (key : String) :
    Except PyExc Headers :=
  decrypt_user_metadata_aux crypto hs key hs

/-- DecrypterObjContext.decrypt_resp_headers: build the replacement pairs —
Etag whenever its crypto-meta header decodes (regardless of the ciphertext
header's presence), Content-Type always, then the processed user metadata —
and return the headers whose lowercased name is not replaced, followed by
the replacement pairs. -/
def decrypt_resp_headers (crypto : Crypto) (hs : Headers) (keys : KeyMap) :
    Except PyExc Headers :=
  let etag := (headerValue hs "X-Object-Sysmeta-Crypto-Etag").getD ""
  match get_sysmeta_crypto_meta hs "X-Object-Sysmeta-Crypto-Meta-Etag" with
  | Except.error e => Except.error e
  | Except.ok cm =>
    let etagPairs : Except PyExc Headers :=
      match cm with
      | some m =>
        match decrypt_value crypto etag keys.object (some m) with
        | Except.ok v => Except.ok [("Etag", v)]
        | Except.error e => Except.error e
      | none => Except.ok []
    match etagPairs with
    | Except.error e => Except.error e
    | Except.ok ep =>
      match decrypt_value crypto ((headerValue hs "Content-Type").getD "") keys.object none with
      | Except.error e => Except.error e
      | Except.ok ctype =>
        match decrypt_user_metadata crypto hs keys.object with
        | Except.error e => Except.error e
        | Except.ok um =>
          let modPairs := ep ++ [("Content-Type", ctype)] ++ um
          let modNames := modPairs.map (fun p => pyLower p.1)
          Except.ok ((hs.filter (fun p => !(decide (pyLower p.1 ∈ modNames)))) ++ modPairs)

/-- Modelled from the spec: swift.common.utils.parse_content_range is not
under src/; the spec says the body context's offset is the first-byte
position parsed from a Content-Range header of the form
bytes first-last/total, a malformed header being a ValueError. -/
def parse_content_range (s : String) : Except PyExc (Nat × Nat × Nat) :=
  if pyStartsWith s "bytes " then
    match pySplit '/' (pyDrop s 6) with
    | [range, total] =>
      match pySplit '-' range with
      | [a, b] =>
        match pyToNat a, pyToNat b, pyToNat total with
        | some x, some y, some z => Except.ok (x, y, z)
        | _, _, _ => Except.error PyExc.valueError
      | _ => Except.error PyExc.valueError
    | _ => Except.error PyExc.valueError
  else Except.error PyExc.valueError

/-- DecrypterObjContext.make_decryption_context: none when the body
crypto-meta header is absent (body unencrypted, a warning only); on a
cipher mismatch an HTTPInternalServerError with the body-stage diagnostic;
otherwise a context seeded with the object key, the metadata iv and the
first-byte offset of a truthy Content-Range header, else offset 0. -/
def make_decryption_context (crypto : Crypto) (hs : Headers) (keys : KeyMap) :
    Except PyExc (Option DecryptionCtxt) :=
  match get_sysmeta_crypto_meta hs "X-Object-Sysmeta-Crypto-Meta" with
  | Except.error e => Except.error e
  | Except.ok none => Except.ok none
  | Except.ok (some m) =>
    match check_cipher crypto m.cipher with
    | Except.error _ =>
      Except.error (PyExc.httpError "Error creating decryption context for object body")
    | Except.ok _ =>
      let offE : Except PyExc Nat :=
        match headerValue hs "Content-Range" with
        | none => Except.ok 0
        | some crs =>
          if crs = "" then Except.ok 0
          else
            match parse_content_range crs with
            | Except.ok (first, _, _) => Except.ok first
            | Except.error e => Except.error e
      match offE with
      | Except.error e => Except.error e
      | Except.ok off => Except.ok (some (crypto.create_decryption_ctxt keys.object m.iv off))

/-- A captured upstream response: status, ordered headers, body as the lazy
chunk sequence. -/
structure Resp where
  status : Nat
  headers : Headers
  body : List String
  deriving DecidableEq, Repr

/-- The iter_response generator of DecrypterObjContext.GET: each upstream
chunk through the stateful context's transform, in order. -/
def iter_response (crypto : Crypto) : DecryptionCtxt → List String → List String
  | _, [] => []
  | ctxt, chunk :: rest =>
    let r := crypto.update ctxt chunk
    r.1 :: iter_response crypto r.2 rest

/-- DecrypterObjContext.GET after the forwarded application call: skip
everything when process_resp yields no keys; otherwise build the body
context first, then the rewritten headers, and wrap the body iff a context
exists. -/
def objectGET (crypto : Crypto) (override : Bool) (kf : KeyFetch) (resp : Resp) :
    Except PyExc Resp :=
  match process_resp resp.status override kf with
  | Except.error e => Except.error e
  | Except.ok none => Except.ok resp
  | Except.ok (some keys) =>
    match make_decryption_context crypto resp.headers keys with
    | Except.error e => Except.error e
    | Except.ok ctxt =>
      match decrypt_resp_headers crypto resp.headers keys with
      | Except.error e => Except.error e
      | Except.ok hs =>
        match ctxt with
        | none => Except.ok { resp with headers := hs }
        | some c => Except.ok { resp with headers := hs, body := iter_response crypto c resp.body }

/-- The GET handler including the forwarded application call: a fault the
wrapped application raises propagates out of the handler before any
decryption step runs. -/
def objectGET_handler (crypto : Crypto) (override : Bool) (kf : KeyFetch)
    (appResult : Except PyExc Resp) : Except PyExc Resp :=
  match appResult with
  | Except.error e => Except.error e
  | Except.ok resp => objectGET crypto override kf resp

/-- What Decrypter.__call__ hands to the WSGI caller: the handler's value, a
rendered error response for a caught HTTPException, or an uncaught
exception propagating. -/
inductive CallResult (α : Type) where
  | ok (a : α)
  | errorResponse (status : Nat) (body : String)
  | uncaught (e : PyExc)
  deriving DecidableEq, Repr

/-- The dispatch boundary of Decrypter.__call__: the selected handler runs
under an except clause for swob.HTTPException only, so an HTTPException is
rendered as its error response (HTTPInternalServerError renders with status
500) and any other exception propagates to the caller unchanged. -/
def dispatch {α : Type} (handlerResult : Except PyExc α) : CallResult α :=
  match handlerResult with
  | Except.ok a => CallResult.ok a
  | Except.error (PyExc.httpError body) => CallResult.errorResponse 500 body
  | Except.error e => CallResult.uncaught e

/-- A container listing entry as json.loads yields it: an ordered record of
fields.  Values of fields other than content_type are never inspected and
are carried as their serialized text. -/
abbrev Entry := List (String × String)

/-- Python dict read obj_dict[k], as an option. -/
def lookupField : Entry → String → Option String
  | [], _ => none
  | (k0, v0) :: rest, k => if k0 = k then some v0 else lookupField rest k

/-- Python dict write obj_dict[k] = v for a key already present: replace in
place, all other fields untouched. -/
def setField : Entry → String → String → Entry
  | [], _, _ => []
  | (k0, v0) :: rest, k, v =>
    if k0 = k then (k0, v) :: rest else (k0, v0) :: setField rest k v

/-- DecrypterContContext.decrypt_obj_dict: read obj_dict[content_type] —
a KeyError when the field is missing — decrypt it with the container key
(inline extraction applies) and write it back. -/
def decrypt_obj_dict (crypto : Crypto) (e : Entry) (keys : KeyMap) :
    Except PyExc Entry :=
  match lookupField e "content_type" with
  | none => Except.error PyExc.keyError
  | some ct =>
    match decrypt_value crypto ct keys.container none with
    | Except.error err => Except.error err
    | Except.ok p => Except.ok (setField e "content_type" p)

/-- Serialization of one field for the json.dumps stand-in. -/
def jsonQuote (s : String) : String := "\"" ++ s ++ "\""

/-- Serialization of one entry for the json.dumps stand-in. -/
def serializeEntry (e : Entry) : String :=
  "\x7b" ++ pyJoin ", " (e.map (fun p => jsonQuote p.1 ++ ": " ++ jsonQuote p.2)) ++ "\x7d"

/-- Stand-in for json.dumps on the processed listing; what matters to the
middleware is only that the recomputed Content-Length is the exact length
of whatever this serialization returns. -/
def serializeListing (es : List Entry) : String :=
  "[" ++ pyJoin ", " (es.map serializeEntry) ++ "]"

/-- DecrypterContContext.update_content_length: drop every Content-Length
header case-insensitively and append the new exact length. -/
def update_content_length (hs : Headers) (n : Nat) : Headers :=
  (hs.filter (fun p => !(pyLower p.1 == "content-length"))) ++ [("Content-Length", toString n)]

/-- The list comprehension of process_json_resp: decrypt_obj_dict over the
entries in order, the first failure propagating. -/
def decrypt_obj_list (crypto : Crypto) (keys : KeyMap) :
    List Entry → Except PyExc (List Entry)
  | [] => Except.ok []
  | e :: rest =>
    match decrypt_obj_dict crypto e keys with
    | Except.error err => Except.error err
    | Except.ok e2 =>
      match decrypt_obj_list crypto keys rest with
      | Except.error err => Except.error err
      | Except.ok r => Except.ok (e2 :: r)

/-- DecrypterContContext.process_json_resp over the parsed listing: decrypt
every entry's content_type, re-serialize, update Content-Length with the
new body's exact length. -/
def process_json_resp (crypto : Crypto) (keys : KeyMap) (hs : Headers)
    (entries : List Entry) : Except PyExc (Headers × String) :=
  match decrypt_obj_list crypto keys entries with
  | Except.error e => Except.error e
  | Except.ok out =>
    let newBody := serializeListing out
    Except.ok (update_content_length hs newBody.length, newBody)

mutual

/-- An ElementTree element: tag, text, children.  Attributes are never
touched by the middleware and are out of the model. -/
inductive Xml where
  | elem (tag : String) (text : String) (children : XmlForest)

/-- A list of sibling elements, as a mutual inductive so that recursion and
induction over the tree stay structural. -/
inductive XmlForest where
  | nil
  | cons (x : Xml) (xs : XmlForest)

end

mutual

/-- The loop of process_xml_resp over one element: for a content_type tag
the text goes through decrypt_value with the container key (inline
extraction applies), any other tag is untouched; children are processed
recursively. -/
def decryptXml (crypto : Crypto) (key : String) : Xml → Except PyExc Xml
  | Xml.elem tag text children =>
    let textE : Except PyExc String :=
      if tag = "content_type" then decrypt_value crypto text key none
      else Except.ok text
    match textE with
    | Except.error e => Except.error e
    | Except.ok text2 =>
      match decryptXmlForest crypto key children with
      | Except.error e => Except.error e
      | Except.ok cs => Except.ok (Xml.elem tag text2 cs)

/-- The loop of process_xml_resp over a sibling list. -/
def decryptXmlForest (crypto : Crypto) (key : String) :
    XmlForest → Except PyExc XmlForest
  | XmlForest.nil => Except.ok XmlForest.nil
  | XmlForest.cons x xs =>
    match decryptXml crypto key x with
    | Except.error e => Except.error e
    | Except.ok x2 =>
      match decryptXmlForest crypto key xs with
      | Except.error e => Except.error e
      | Except.ok xs2 => Except.ok (XmlForest.cons x2 xs2)

end

mutual

/-- Stand-in for ElementTree.tostring on one element. -/
def serializeXml : Xml → String
  | Xml.elem tag text children =>
    "<" ++ tag ++ ">" ++ text ++ serializeXmlForest children ++ "</" ++ tag ++ ">"

/-- Stand-in for ElementTree.tostring on a sibling list. -/
def serializeXmlForest : XmlForest → String
  | XmlForest.nil => ""
  | XmlForest.cons x xs => serializeXml x ++ serializeXmlForest xs

end

mutual

/-- The (tag, text) pairs of a tree in document order, the order
ElementTree's iter visits elements. -/
def xmlTexts : Xml → List (String × String)
  | Xml.elem tag text children => (tag, text) :: xmlForestTexts children

/-- The (tag, text) pairs of a sibling list in document order. -/
def xmlForestTexts : XmlForest → List (String × String)
  | XmlForest.nil => []
  | XmlForest.cons x xs => xmlTexts x ++ xmlForestTexts xs

end

/-- The normalized document prolog process_xml_resp re-serializes with. -/
def xmlProlog : String := "<?xml version=\"1.0\" encoding=\"UTF-8\"?>\n"

/-- DecrypterContContext.process_xml_resp over the parsed tree: decrypt the
text of every element tagged content_type with the container key,
re-serialize with the normalized prolog, update Content-Length with the new
body's exact length. -/
def process_xml_resp (crypto : Crypto) (keys : KeyMap) (hs : Headers) (tree : Xml) :
    Except PyExc (Headers × String) :=
  match decryptXml crypto keys.container tree with
  | Except.error e => Except.error e
  | Except.ok t2 =>
    let newBody := xmlProlog ++ serializeXml t2
    Except.ok (update_content_length hs newBody.length, newBody)

/-- The upstream container listing body, already decoded by the external
codec negotiated for the request format: raw chunks for a plain name
listing, parsed entries for json, a parsed tree for xml. -/
inductive ListingBody where
  | plain (chunks : List String)
  | jsonBody (entries : List Entry)
  | xmlBody (tree : Xml)

/-- DecrypterContContext.GET after the forwarded application call: with keys
resolved, rewrite a json or xml listing body and its Content-Length; any
other case passes status, headers and body through untouched. -/
def containerGET (crypto : Crypto) (override : Bool) (kf : KeyFetch) (status : Nat)
    (hs : Headers) (fmt : String) (body : ListingBody) :
    Except PyExc (Nat × Headers × ListingBody) :=
  match process_resp status override kf with
  | Except.error e => Except.error e
  | Except.ok none => Except.ok (status, hs, body)
  | Except.ok (some keys) =>
    if fmt = "application/json" then
      match body with
      | ListingBody.jsonBody entries =>
        match process_json_resp crypto keys hs entries with
        | Except.error e => Except.error e
        | Except.ok (hs2, nb) => Except.ok (status, hs2, ListingBody.plain [nb])
      | b => Except.ok (status, hs, b)
    else if pyEndsWith fmt "/xml" then
      match body with
      | ListingBody.xmlBody t =>
        match process_xml_resp crypto keys hs t with
        | Except.error e => Except.error e
        | Except.ok (hs2, nb) => Except.ok (status, hs2, ListingBody.plain [nb])
      | b => Except.ok (status, hs, b)
    else Except.ok (status, hs, body)

/-- Concrete engine instance used to evaluate closed statements, mirroring
the tests' FakeCrypto: cipher identifier "fake", identity chunk transform. -/
def testCrypto : Crypto :=
  { cipher := "fake", update := fun c s => (s, c) }

/-- Concrete key map for closed statements. -/
def testKeys : KeyMap :=
  { object := "objKey", container := "contKey" }

/-- A crypto-meta token whose cipher matches `testCrypto` and whose iv is
base64 for the two bytes "iv". -/
def metaTokenFake : String :=
  "\x7b\"iv\": \"aXY=\", \"cipher\": \"fake\"\x7d"

/-- Sanity check of the token literal: it decodes to iv "iv" and the
engine's cipher. -/
theorem metaTokenFake_decodes :
    load_crypto_meta metaTokenFake = Except.ok { iv := "iv", cipher := "fake" } :=
  rfl

/-- The headers of the C3 failing input: an original Etag, a plain
Content-Type, the Etag crypto-meta header present, and the ciphertext-Etag
header X-Object-Sysmeta-Crypto-Etag absent. -/
def c3Headers : Headers :=
  [("Etag", "orig"), ("Content-Type", "text/plain"),
   ("X-Object-Sysmeta-Crypto-Meta-Etag", metaTokenFake)]

/-- The C4 failing input: a successful upstream object GET response with a
parameterized plaintext Content-Type and no encryption metadata at all. -/
def c4Resp : Resp :=
  { status := 200,
    headers := [("Content-Type", "text/plain; charset=utf-8"), ("Content-Length", "8")],
    body := ["FAKE APP"] }

/-- A listing entry with no content_type field, the C10 input. -/
def c10Entry : Entry := [("name", "testfile")]

/-- C1.  The claim says that whenever inline-metadata extraction fails,
decrypt_value returns the full original value unchanged and raises no
error.  The code diverges on two of the three extraction-failure modes its
docstring promises to pass through: a trailing segment that does not start
with the marker is stripped from the returned value, because rsplit rebinds
value before the marker test; and a marker token that does not decode is an
HTTPInternalServerError propagating out of decrypt_value, because
_load_crypto_meta converts the ValueError the except clause watches for
into the very exception it does not catch. -/
theorem C1_extraction_failure_divergence :
    decrypt_value testCrypto "text/plain; charset=utf-8" "k" none =
      Except.ok "text/plain" ∧
    decrypt_value testCrypto "x;meta=junk" "k" none =
      Except.error (PyExc.httpError "Could not decrypt. Bad crypto_meta: junk") ∧
    decrypt_value testCrypto "no-semicolon-here" "k" none =
      Except.ok "no-semicolon-here" :=
  ⟨rfl, rfl, rfl⟩

/-- C2, counterexample.  The claim asserts the cipher-mismatch error also
when the value to decrypt is empty; the code returns the empty value as
plaintext without consulting the mismatching crypto-meta. -/
theorem C2_empty_value_counterexample :
    ("other" = testCrypto.cipher → False) ∧
    decrypt_value testCrypto "" "k" (some { iv := "iv", cipher := "other" }) =
      Except.ok "" :=
  ⟨by decide, rfl⟩

/-- C2, amended.  For every non-empty value, a cipher mismatch in explicit
crypto-meta or in successfully extracted inline crypto-meta is an
HTTPInternalServerError with the header-stage diagnostic, never a plaintext
fallback; a body crypto-meta mismatch in make_decryption_context is an
HTTPInternalServerError with the distinct body-stage diagnostic. -/
theorem C2_amended_mismatch_errors :
    ∀ (crypto : Crypto) (key : String),
      (∀ (value : String) (m : CryptoMeta), value ≠ "" → m.cipher ≠ crypto.cipher →
        decrypt_value crypto value key (some m) =
          Except.error (PyExc.httpError "Error decrypting header value")) ∧
      (∀ (value v : String) (m : CryptoMeta), value ≠ "" →
        extract_crypto_meta value = Except.ok (v, some m) → m.cipher ≠ crypto.cipher →
        decrypt_value crypto value key none =
          Except.error (PyExc.httpError "Error decrypting header value")) ∧
      (∀ (hs : Headers) (keys : KeyMap) (tok : String) (m : CryptoMeta),
        headerValue hs "X-Object-Sysmeta-Crypto-Meta" = some tok →
        load_crypto_meta tok = Except.ok m → m.cipher ≠ crypto.cipher →
        make_decryption_context crypto hs keys =
          Except.error (PyExc.httpError "Error creating decryption context for object body")) ∧
      "Error decrypting header value" ≠ "Error creating decryption context for object body" := by
  intro crypto key
  refine ⟨?_, ?_, ?_, by decide⟩
  · intro value m hv hm
    simp only [decrypt_value, check_cipher, Crypto.get_cipher, if_neg hv, if_neg hm]
  · intro value v m hv hext hm
    simp only [decrypt_value, check_cipher, Crypto.get_cipher, if_neg hv, hext, if_neg hm]
  · intro hs keys tok m hhdr hload hm
    simp only [make_decryption_context, get_sysmeta_crypto_meta, hhdr, hload,
      check_cipher, Crypto.get_cipher, if_neg hm]

/-- C2, witness for the amended theorem at a concrete mismatching input. -/
theorem C2_amended_witness :
    decrypt_value testCrypto "abc" "k" (some { iv := "iv", cipher := "other" }) =
      Except.error (PyExc.httpError "Error decrypting header value") :=
  (C2_amended_mismatch_errors testCrypto "k").1 "abc" { iv := "iv", cipher := "other" }
    (by decide) (by decide)

/-- C3.  The claim says the client-visible Etag is replaced only when the
ciphertext-Etag header and its metadata header are both present.  On the
failing input the ciphertext-Etag header is absent while the metadata
header decodes, and the code still replaces the Etag: the original
("Etag", "orig") pair is dropped and ("Etag", "") — decrypt_value of the
missing (hence empty) ciphertext — is emitted, as the code's own TO-DO
remarks about the unchecked header. -/
theorem C3_etag_replaced_without_ciphertext_header :
    headerValue c3Headers "X-Object-Sysmeta-Crypto-Etag" = none ∧
    decrypt_resp_headers testCrypto c3Headers testKeys =
      Except.ok [("X-Object-Sysmeta-Crypto-Meta-Etag", metaTokenFake),
                 ("Etag", ""), ("Content-Type", "text/plain")] :=
  ⟨rfl, rfl⟩

/-- C4.  The claim says a successful object GET without body crypto-meta or
any other encryption metadata passes through byte-identical.  On the
failing input — no crypto headers anywhere, a plaintext Content-Type with a
parameter — the body does stream through unchanged but the Content-Type
value is truncated at its semicolon by decrypt_value's extraction slip, so
the response is not identical to the upstream one. -/
theorem C4_passthrough_truncates_content_type :
    objectGET testCrypto false (KeyFetch.keys testKeys) c4Resp =
      Except.ok { status := 200,
                  headers := [("Content-Length", "8"), ("Content-Type", "text/plain")],
                  body := ["FAKE APP"] } ∧
    headerValue c4Resp.headers "Content-Type" = some "text/plain; charset=utf-8" :=
  ⟨rfl, rfl⟩

/-- C5.  When the captured status is not a success or the skip-decryption
override is set, both the object GET path and the container GET path return
status, headers and body unchanged, for every key-fetch state — so no key
fetch, header rewrite or body transform can have any effect. -/
theorem C5_bypass_returns_response_untouched :
    ∀ (crypto : Crypto) (override : Bool) (kf : KeyFetch),
      (∀ resp : Resp, is_success resp.status = false ∨ override = true →
        objectGET crypto override kf resp = Except.ok resp) ∧
      (∀ (status : Nat) (hs : Headers) (fmt : String) (body : ListingBody),
        is_success status = false ∨ override = true →
        containerGET crypto override kf status hs fmt body =
          Except.ok (status, hs, body)) := by
  intro crypto override kf
  constructor
  · intro resp h
    unfold objectGET process_resp
    rcases h with h | h
    · simp [h]
    · subst h
      by_cases hs : is_success resp.status = false <;> simp [hs]
  · intro status hs fmt body h
    unfold containerGET process_resp
    rcases h with h | h
    · simp [h]
    · subst h
      by_cases hs2 : is_success status = false <;> simp [hs2]

/-- C5, witness: override set, key callback absent, well-formed metadata
present — the response still passes through untouched. -/
theorem C5_witness :
    objectGET testCrypto true KeyFetch.missing
      { status := 200,
        headers := [("X-Object-Sysmeta-Crypto-Meta", metaTokenFake)],
        body := ["chunk"] } =
      Except.ok { status := 200,
                  headers := [("X-Object-Sysmeta-Crypto-Meta", metaTokenFake)],
                  body := ["chunk"] } :=
  (C5_bypass_returns_response_untouched testCrypto true KeyFetch.missing).1 _ (Or.inr rfl)

/-- C6.  With body crypto-meta present and its cipher matching, the body
decryption context is seeded with the object key, the iv from the
crypto-meta, and the first-byte position of the Content-Range header when
one is present, else offset 0. -/
theorem C6_body_context_key_iv_offset :
    ∀ (crypto : Crypto) (hs : Headers) (keys : KeyMap) (tok : String) (m : CryptoMeta),
      headerValue hs "X-Object-Sysmeta-Crypto-Meta" = some tok →
      load_crypto_meta tok = Except.ok m →
      m.cipher = crypto.cipher →
      (headerValue hs "Content-Range" = none →
        make_decryption_context crypto hs keys =
          Except.ok (some { key := keys.object, iv := m.iv, offset := 0 })) ∧
      (∀ (cr : String) (first finish total : Nat),
        headerValue hs "Content-Range" = some cr → cr ≠ "" →
        parse_content_range cr = Except.ok (first, finish, total) →
        make_decryption_context crypto hs keys =
          Except.ok (some { key := keys.object, iv := m.iv, offset := first })) := by
  intro crypto hs keys tok m hhdr hload hcipher
  constructor
  · intro hcr
    simp only [make_decryption_context, get_sysmeta_crypto_meta, hhdr, hload,
      check_cipher, Crypto.get_cipher, if_pos hcipher, hcr,
      Crypto.create_decryption_ctxt]
  · intro cr first finish total hcr hne hparse
    simp only [make_decryption_context, get_sysmeta_crypto_meta, hhdr, hload,
      check_cipher, Crypto.get_cipher, if_pos hcipher, hcr, if_neg hne, hparse,
      Crypto.create_decryption_ctxt]

/-- C6, witness at a ranged GET: crypto-meta present with matching cipher
and Content-Range bytes 3-10/17 seeds the context at offset 3. -/
theorem C6_witness :
    make_decryption_context testCrypto
      [("X-Object-Sysmeta-Crypto-Meta", metaTokenFake), ("Content-Range", "bytes 3-10/17")]
      testKeys =
      Except.ok (some { key := "objKey", iv := "iv", offset := 3 }) :=
  (C6_body_context_key_iv_offset testCrypto
      [("X-Object-Sysmeta-Crypto-Meta", metaTokenFake), ("Content-Range", "bytes 3-10/17")]
      testKeys metaTokenFake { iv := "iv", cipher := "fake" } rfl rfl rfl).2
    "bytes 3-10/17" 3 10 17 rfl (by decide) rfl

/-- C8.  At the dispatch boundary, a handler outcome that is an
HTTPException is rendered as the corresponding error response; an
unstructured fault raised by the wrapped application passes through the
handler untouched and then propagates through the dispatcher unchanged,
never converted into a response. -/
theorem C8_dispatch_boundary :
    ∀ (crypto : Crypto) (override : Bool) (kf : KeyFetch)
      (appResult : Except PyExc Resp) (b m : String),
      (objectGET_handler crypto override kf appResult = Except.error (PyExc.httpError b) →
        dispatch (objectGET_handler crypto override kf appResult) =
          CallResult.errorResponse 500 b) ∧
      objectGET_handler crypto override kf (Except.error (PyExc.appFault m)) =
        Except.error (PyExc.appFault m) ∧
      dispatch (α := Resp) (Except.error (PyExc.appFault m)) =
        CallResult.uncaught (PyExc.appFault m) := by
  intro crypto override kf appResult b m
  refine ⟨?_, rfl, rfl⟩
  intro h
  rw [h]
  rfl

/-- C8, witness: a missing key callback makes the handler raise the
structured HTTPInternalServerError, which the dispatcher renders as the
500 error response carrying its diagnostic body. -/
theorem C8_witness :
    dispatch (objectGET_handler testCrypto false KeyFetch.missing
        (Except.ok { status := 200, headers := [], body := [] })) =
      CallResult.errorResponse 500 "swift.crypto.fetch_crypto_keys not in env" :=
  (C8_dispatch_boundary testCrypto false KeyFetch.missing
      (Except.ok { status := 200, headers := [], body := [] })
      "swift.crypto.fetch_crypto_keys not in env" "x").1 rfl

/-- How one processed listing entry relates to its source entry: its
content_type field was read, decrypted with the container key, and written
back in place. -/
def entryRel (crypto : Crypto) (keys : KeyMap) (e e2 : Entry) : Prop :=
  ∃ ct dv, lookupField e "content_type" = some ct ∧
    decrypt_value crypto ct keys.container none = Except.ok dv ∧
    e2 = setField e "content_type" dv

/-- How one processed (tag, text) element relates to its source element:
same tag, text untouched unless the tag is content_type, in which case the
text was decrypted with the container key. -/
def xmlTextRel (crypto : Crypto) (key : String) (p q : String × String) : Prop :=
  q.1 = p.1 ∧ (p.1 ≠ "content_type" → q.2 = p.2) ∧
    (p.1 = "content_type" → decrypt_value crypto p.2 key none = Except.ok q.2)

/-- Writing a field leaves the entry's field names, in order, unchanged. -/
theorem setField_map_fst (e : Entry) (k v : String) :
    (setField e k v).map Prod.fst = e.map Prod.fst := by
  induction e with
  | nil => rfl
  | cons p rest ih =>
    obtain ⟨k0, v0⟩ := p
    by_cases hk : k0 = k <;> simp [setField, hk, ih]

/-- Writing one field leaves every other field's value unchanged. -/
theorem lookupField_setField_ne (e : Entry) (k v k2 : String) (h : k2 ≠ k) :
    lookupField (setField e k v) k2 = lookupField e k2 := by
  induction e with
  | nil => rfl
  | cons p rest ih =>
    obtain ⟨k0, v0⟩ := p
    by_cases hk : k0 = k
    · subst hk
      have h2 : ¬ k0 = k2 := fun he => h he.symm
      simp [setField, lookupField, h2]
    · simp only [setField, if_neg hk, lookupField]
      by_cases hq : k0 = k2 <;> simp [hq, ih]

/-- The processed listing relates entrywise, in order, to the source
listing. -/
theorem decrypt_obj_list_forall2 (crypto : Crypto) (keys : KeyMap) :
    ∀ (entries out : List Entry),
      decrypt_obj_list crypto keys entries = Except.ok out →
      List.Forall₂ (entryRel crypto keys) entries out := by
  intro entries
  induction entries with
  | nil =>
    intro out h
    simp only [decrypt_obj_list] at h
    injection h with h2
    subst h2
    exact List.Forall₂.nil
  | cons e rest ih =>
    intro out h
    simp only [decrypt_obj_list] at h
    cases hd : decrypt_obj_dict crypto e keys with
    | error err => rw [hd] at h; simp at h
    | ok e2 =>
      rw [hd] at h
      cases hr : decrypt_obj_list crypto keys rest with
      | error err => rw [hr] at h; simp at h
      | ok r =>
        rw [hr] at h
        injection h with h2
        subst h2
        refine List.Forall₂.cons ?_ (ih r hr)
        cases hl : lookupField e "content_type" with
        | none => simp [decrypt_obj_dict, hl] at hd
        | some ct =>
          cases hdv : decrypt_value crypto ct keys.container none with
          | error err => simp [decrypt_obj_dict, hl, hdv] at hd
          | ok dv =>
            simp only [decrypt_obj_dict, hl, hdv] at hd
            injection hd with hd2
            exact ⟨ct, dv, hl, hdv, hd2.symm⟩

/-- After update_content_length, the Content-Length header reads exactly
the recorded number. -/
theorem headerValue_update_content_length (hs : Headers) (n : Nat) :
    headerValue (update_content_length hs n) "Content-Length" = some (toString n) := by
  have hcl : pyLower "Content-Length" = "content-length" := rfl
  induction hs with
  | nil => rfl
  | cons p rest ih =>
    obtain ⟨nm, v⟩ := p
    simp only [update_content_length, List.filter_cons] at ih ⊢
    by_cases hnm : (pyLower nm == "content-length") = true
    · simp only [hnm, Bool.not_true, if_neg]
      simpa [update_content_length] using ih
    · have hnm2 : (pyLower nm == "content-length") = false := by
        simpa using hnm
      have hne : ¬ pyLower nm = pyLower "Content-Length" := by
        rw [hcl]
        simpa using hnm
      simp only [hnm2, Bool.not_false, if_pos, List.cons_append, headerValue, if_neg hne]
      simpa [update_content_length] using ih

mutual

/-- decryptXml leaves the document-order (tag, text) sequence elementwise
related to the source: same tags, only content_type texts changed, each to
its decrypted value. -/
theorem decryptXml_texts_forall2 (crypto : Crypto) (key : String) :
    ∀ (t t2 : Xml), decryptXml crypto key t = Except.ok t2 →
      List.Forall₂ (xmlTextRel crypto key) (xmlTexts t) (xmlTexts t2)
  | Xml.elem tag text children, t2, h => by
    simp only [decryptXml] at h
    by_cases htag : tag = "content_type"
    · rw [if_pos htag] at h
      cases hdv : decrypt_value crypto text key none with
      | error err => rw [hdv] at h; simp at h
      | ok text2 =>
        rw [hdv] at h
        cases hcs : decryptXmlForest crypto key children with
        | error err => rw [hcs] at h; simp at h
        | ok cs =>
          rw [hcs] at h
          injection h with h2
          subst h2
          simp only [xmlTexts]
          refine List.Forall₂.cons ?_ (decryptXmlForest_texts_forall2 crypto key children cs hcs)
          exact ⟨rfl, fun hne => absurd htag hne, fun _ => hdv⟩
    · rw [if_neg htag] at h
      cases hcs : decryptXmlForest crypto key children with
      | error err => rw [hcs] at h; simp at h
      | ok cs =>
        rw [hcs] at h
        injection h with h2
        subst h2
        simp only [xmlTexts]
        refine List.Forall₂.cons ?_ (decryptXmlForest_texts_forall2 crypto key children cs hcs)
        exact ⟨rfl, fun _ => rfl, fun he => absurd he htag⟩

/-- Sibling-list version of decryptXml_texts_forall2. -/
theorem decryptXmlForest_texts_forall2 (crypto : Crypto) (key : String) :
    ∀ (f f2 : XmlForest), decryptXmlForest crypto key f = Except.ok f2 →
      List.Forall₂ (xmlTextRel crypto key) (xmlForestTexts f) (xmlForestTexts f2)
  | XmlForest.nil, f2, h => by
    simp only [decryptXmlForest] at h
    injection h with h2
    subst h2
    exact List.Forall₂.nil
  | XmlForest.cons x xs, f2, h => by
    simp only [decryptXmlForest] at h
    cases hx : decryptXml crypto key x with
    | error err => rw [hx] at h; simp at h
    | ok x2 =>
      rw [hx] at h
      cases hxs : decryptXmlForest crypto key xs with
      | error err => rw [hxs] at h; simp at h
      | ok xs2 =>
        rw [hxs] at h
        injection h with h2
        subst h2
        simp only [xmlForestTexts]
        exact List.rel_append (decryptXml_texts_forall2 crypto key x x2 hx)
          (decryptXmlForest_texts_forall2 crypto key xs xs2 hxs)

end

/-- C7.  Listing fidelity for both structured formats: the processed json
listing has exactly as many entries as the source, related pairwise in
order — each output entry is its source entry with only the content_type
field rewritten to its decrypted value, field names and all other field
values preserved — and the response's Content-Length is replaced with the
exact length of the re-serialized body; the processed xml tree preserves
tags and document order elementwise, changes only content_type texts, and
gets the same exact Content-Length treatment. -/
theorem C7_listing_fidelity :
    ∀ (crypto : Crypto) (keys : KeyMap),
      (∀ (entries out : List Entry),
        decrypt_obj_list crypto keys entries = Except.ok out →
        out.length = entries.length ∧
        List.Forall₂ (entryRel crypto keys) entries out) ∧
      (∀ (e : Entry) (v k2 : String), k2 ≠ "content_type" →
        lookupField (setField e "content_type" v) k2 = lookupField e k2) ∧
      (∀ (e : Entry) (v : String),
        (setField e "content_type" v).map Prod.fst = e.map Prod.fst) ∧
      (∀ (hs hs2 : Headers) (entries : List Entry) (nb : String),
        process_json_resp crypto keys hs entries = Except.ok (hs2, nb) →
        headerValue hs2 "Content-Length" = some (toString nb.length)) ∧
      (∀ (t t2 : Xml), decryptXml crypto keys.container t = Except.ok t2 →
        List.Forall₂ (xmlTextRel crypto keys.container) (xmlTexts t) (xmlTexts t2)) ∧
      (∀ (hs hs2 : Headers) (t : Xml) (nb : String),
        process_xml_resp crypto keys hs t = Except.ok (hs2, nb) →
        headerValue hs2 "Content-Length" = some (toString nb.length)) := by
  intro crypto keys
  refine ⟨?_, ?_, ?_, ?_, ?_, ?_⟩
  · intro entries out h
    have h2 := decrypt_obj_list_forall2 crypto keys entries out h
    exact ⟨h2.length_eq.symm, h2⟩
  · intro e v k2 h
    exact lookupField_setField_ne e "content_type" v k2 h
  · intro e v
    exact setField_map_fst e "content_type" v
  · intro hs hs2 entries nb h
    simp only [process_json_resp] at h
    cases hl : decrypt_obj_list crypto keys entries with
    | error err => rw [hl] at h; simp at h
    | ok out =>
      rw [hl] at h
      injection h with h2
      injection h2 with h3 h4
      subst h3
      subst h4
      exact headerValue_update_content_length hs _
  · intro t t2 h
    exact decryptXml_texts_forall2 crypto keys.container t t2 h
  · intro hs hs2 t nb h
    simp only [process_xml_resp] at h
    cases hl : decryptXml crypto keys.container t with
    | error err => rw [hl] at h; simp at h
    | ok t3 =>
      rw [hl] at h
      injection h with h2
      injection h2 with h3 h4
      subst h3
      subst h4
      exact headerValue_update_content_length hs _

/-- The headers of the C7 witness listing response. -/
def c7hs : Headers := [("Content-Type", "application/json"), ("Content-Length", "99")]

/-- The single-entry listing of the C7 witness. -/
def c7entries : List Entry := [[("name", "testfile"), ("content_type", "image/jpeg")]]

/-- The headers process_json_resp returns on the C7 witness input. -/
def c7hs2 : Headers := [("Content-Type", "application/json"), ("Content-Length", "52")]

/-- The body process_json_resp returns on the C7 witness input. -/
def c7body : String :=
  "[\x7b\"name\": \"testfile\", \"content_type\": \"image/jpeg\"\x7d]"

/-- C7, witness: the concrete processed listing carries a Content-Length
equal to the exact length of its re-serialized body. -/
theorem C7_witness :
    headerValue c7hs2 "Content-Length" = some (toString c7body.length) :=
  (C7_listing_fidelity testCrypto testKeys).2.2.2.1 c7hs c7hs2 c7entries c7body rfl

/-- Every pair the user-metadata loop emits comes from a header of the
walked list that is user metadata with a non-empty value. -/
theorem decrypt_user_metadata_aux_sound (crypto : Crypto) (hs : Headers) (key : String) :
    ∀ (rem : Headers) (out : Headers),
      decrypt_user_metadata_aux crypto hs key rem = Except.ok out →
      ∀ q ∈ out, ∃ val, (q.1, val) ∈ rem ∧ val ≠ "" ∧ is_user_meta q.1 = true := by
  intro rem
  induction rem with
  | nil =>
    intro out h q hq
    simp only [decrypt_user_metadata_aux] at h
    injection h with h2
    subst h2
    simp at hq
  | cons p rest ih =>
    obtain ⟨hname, hval⟩ := p
    intro out h q hq
    simp only [decrypt_user_metadata_aux] at h
    by_cases hc : is_user_meta hname = true ∧ hval ≠ ""
    · rw [if_pos hc] at h
      cases hg : get_sysmeta_crypto_meta hs (crypto_meta_sysmeta_pfx ++ strip_user_meta_pfx hname) with
      | error e => simp [hg] at h
      | ok o =>
        cases o with
        | none =>
          simp only [hg] at h
          obtain ⟨val2, hm2, hne2, hq2⟩ := ih out h q hq
          exact ⟨val2, List.mem_cons_of_mem _ hm2, hne2, hq2⟩
        | some m =>
          cases hdv : decrypt_value crypto hval key (some m) with
          | error e => simp [hg, hdv] at h
          | ok v =>
            cases hr : decrypt_user_metadata_aux crypto hs key rest with
            | error e => simp [hg, hdv, hr] at h
            | ok r =>
              simp only [hg, hdv, hr] at h
              injection h with h2
              subst h2
              rcases List.mem_cons.mp hq with hq1 | hq2
              · subst hq1
                exact ⟨hval, List.mem_cons_self _ _, hc.2, hc.1⟩
              · obtain ⟨val2, hm2, hne2, hq3⟩ := ih r hr q hq2
                exact ⟨val2, List.mem_cons_of_mem _ hm2, hne2, hq3⟩
    · rw [if_neg hc] at h
      obtain ⟨val2, hm2, hne2, hq2⟩ := ih out h q hq
      exact ⟨val2, List.mem_cons_of_mem _ hm2, hne2, hq2⟩

/-- C9.  A user-metadata header with an empty value is skipped entirely by
decrypt_user_metadata — its name never appears among the decrypted pairs —
and decrypt_resp_headers leaves the original empty-valued pair in the
response, even when a correspondingly-named crypto-meta header is present.
The header names are assumed case-insensitively distinct, as they are in a
WSGI response. -/
theorem C9_empty_user_metadata_untouched :
    ∀ (crypto : Crypto) (hs : Headers) (keys : KeyMap) (name : String),
      (hs.map (fun p => pyLower p.1)).Nodup →
      (name, "") ∈ hs →
      is_user_meta name = true →
      (∀ out, decrypt_user_metadata crypto hs keys.object = Except.ok out →
        name ∉ out.map Prod.fst) ∧
      (∀ out, decrypt_resp_headers crypto hs keys = Except.ok out →
        (name, "") ∈ out) := by
  intro crypto hs keys name hnd hmem hum
  have hstart : pyStartsWith (pyLower name) user_meta_pfx = true := by
    have h2 := hum
    simp only [is_user_meta, Bool.and_eq_true] at h2
    exact h2.2
  have hinj := List.inj_on_of_nodup_map (f := fun p : String × String => pyLower p.1) hnd
  have hname_um : ∀ (out : Headers),
      decrypt_user_metadata_aux crypto hs keys.object hs = Except.ok out →
      ∀ q ∈ out, pyLower q.1 = pyLower name → False := by
    intro out hout q hq hqe
    obtain ⟨val, hval_mem, hval_ne, _⟩ :=
      decrypt_user_metadata_aux_sound crypto hs keys.object hs out hout q hq
    have heq : (q.1, val) = (name, "") := hinj hval_mem hmem hqe
    exact hval_ne (congrArg Prod.snd heq)
  have hnot_etag : ¬ pyLower name = pyLower "Etag" := by
    intro he
    rw [he] at hstart
    exact absurd hstart (by decide)
  have hnot_ct : ¬ pyLower name = pyLower "Content-Type" := by
    intro he
    rw [he] at hstart
    exact absurd hstart (by decide)
  constructor
  · intro out hout hin
    obtain ⟨q, hq, hqe⟩ := List.mem_map.mp hin
    exact hname_um out hout q hq (by rw [hqe])
  · intro out h
    cases hcm : get_sysmeta_crypto_meta hs "X-Object-Sysmeta-Crypto-Meta-Etag" with
    | error e => simp [decrypt_resp_headers, hcm] at h
    | ok cm =>
      cases cm with
      | none =>
        cases hct : decrypt_value crypto ((headerValue hs "Content-Type").getD "") keys.object none with
        | error e => simp [decrypt_resp_headers, hcm, hct] at h
        | ok ctype =>
          cases hum2 : decrypt_user_metadata crypto hs keys.object with
          | error e => simp [decrypt_resp_headers, hcm, hct, hum2] at h
          | ok um =>
            simp only [decrypt_resp_headers, hcm, hct, hum2] at h
            injection h with h2
            subst h2
            refine List.mem_append_left _ (List.mem_filter.mpr ⟨hmem, ?_⟩)
            have hnin : ¬ pyLower name ∈
                (([] ++ [("Content-Type", ctype)] ++ um).map
                  (fun p : String × String => pyLower p.1)) := by
              intro hmemN
              simp only [List.nil_append, List.map_append, List.mem_append,
                List.map_cons, List.map_nil, List.mem_singleton, List.mem_map] at hmemN
              rcases hmemN with hl | ⟨q, hq, hqe⟩
              · exact hnot_ct hl
              · exact hname_um um hum2 q hq hqe
            simpa using hnin
      | some m =>
        cases hev : decrypt_value crypto ((headerValue hs "X-Object-Sysmeta-Crypto-Etag").getD "")
            keys.object (some m) with
        | error e => simp [decrypt_resp_headers, hcm, hev] at h
        | ok ev =>
          cases hct : decrypt_value crypto ((headerValue hs "Content-Type").getD "") keys.object none with
          | error e => simp [decrypt_resp_headers, hcm, hev, hct] at h
          | ok ctype =>
            cases hum2 : decrypt_user_metadata crypto hs keys.object with
            | error e => simp [decrypt_resp_headers, hcm, hev, hct, hum2] at h
            | ok um =>
              simp only [decrypt_resp_headers, hcm, hev, hct, hum2] at h
              injection h with h2
              subst h2
              refine List.mem_append_left _ (List.mem_filter.mpr ⟨hmem, ?_⟩)
              have hnin : ¬ pyLower name ∈
                  (([("Etag", ev)] ++ [("Content-Type", ctype)] ++ um).map
                    (fun p : String × String => pyLower p.1)) := by
                intro hmemN
                simp only [List.map_append, List.mem_append, List.map_cons, List.map_nil,
                  List.mem_singleton, List.mem_map] at hmemN
                rcases hmemN with (hl | hl) | ⟨q, hq, hqe⟩
                · exact hnot_etag hl
                · exact hnot_ct hl
                · exact hname_um um hum2 q hq hqe
              simpa using hnin

/-- The headers of the C9 witness object response: an empty-valued user
metadata header whose correspondingly-named crypto-meta header is present
and well-formed. -/
def c9hs : Headers :=
  [("x-object-meta-test", ""), ("x-object-sysmeta-crypto-meta-test", metaTokenFake),
   ("Content-Type", "text/plain")]

/-- C9, witness: the empty-valued user-metadata pair survives header
rewriting unchanged on the concrete response. -/
theorem C9_witness :
    ("x-object-meta-test", "") ∈
      [("x-object-meta-test", ""), ("x-object-sysmeta-crypto-meta-test", metaTokenFake),
       ("Content-Type", "text/plain")] :=
  (C9_empty_user_metadata_untouched testCrypto c9hs testKeys "x-object-meta-test"
      (by decide) (by decide) (by decide)).2
    [("x-object-meta-test", ""), ("x-object-sysmeta-crypto-meta-test", metaTokenFake),
     ("Content-Type", "text/plain")] rfl

/-- C10.  A json container listing whose single entry lacks a content_type
field makes the container GET raise a KeyError, which — not being an
HTTPException — the dispatch boundary does not catch: it propagates and no
error response is produced. -/
theorem C10_missing_content_type_keyerror_uncaught :
    process_json_resp testCrypto testKeys [("Content-Type", "application/json")]
      [c10Entry] = Except.error PyExc.keyError ∧
    containerGET testCrypto false (KeyFetch.keys testKeys) 200
      [("Content-Type", "application/json")] "application/json"
      (ListingBody.jsonBody [c10Entry]) = Except.error PyExc.keyError ∧
    dispatch (α := Nat × Headers × ListingBody) (Except.error PyExc.keyError) =
      CallResult.uncaught PyExc.keyError :=
  ⟨rfl, rfl, rfl⟩

end SwiftDecrypter
